import Mathlib

/-!
A shallow embedding of `src/limiton.py` (the Limiton repository).

The module defines, besides three `Singleton*` variants, two attachments of
the same bounded-instance-registry policy:

* `LimitonMeta` — a metaclass whose `__new__` (lines 49-57) validates the
  `_maxlen` / `_pump` class attributes and creates the per-class deque
  `_refs` with `maxlen=_maxlen`, and whose `__call__` (lines 59-66) performs
  the acquire operation at type-call time;
* `LimitonFactory` — a factory object whose `__init__` (lines 76-84) does
  the same validation per factory instance, and whose `__call__`
  (lines 86-91) performs the acquire operation.

Instances are modelled by natural-number identities handed out by a fresh
counter, the per-registry deque by a `List Nat` (oldest first) together with
the `collections.deque` bounded-append behaviour, and the caller-supplied
constructor by an `Option PyErr` argument per call: `none` means the
constructor returns a fresh instance, `some e` means it raises `e`.
Ghost counters (`ctorCalls`, `admissions`, `evictions`) record events
without influencing behaviour.
-/

/-- Python exception values observable from `limiton.py`.  `valueError` with
the capacity message plays the role the spec calls `ConfigurationError`;
`indexError` with the limit message plays the role of
`CapacityExceededError`; `referenceError` is what a dead `weakref.proxy`
raises on dereference; `userError` stands for an arbitrary exception raised
by a caller-supplied constructor. -/
inductive PyErr where
  | valueError (msg : String)
  | indexError (msg : String)
  | attributeError (msg : String)
  | nameError (n : String)
  | referenceError
  | userError (code : Nat)
  deriving DecidableEq, Repr

/-- Decidable equality for `Except`, so that concrete runs of the fallible
operations can be settled by `decide`. -/
instance exceptDecEq {ε α : Type} [DecidableEq ε] [DecidableEq α] :
    DecidableEq (Except ε α) := fun a b =>
  match a, b with
  | .ok x, .ok y =>
    if h : x = y then .isTrue (by rw [h]) else .isFalse (by simp [h])
  | .error x, .error y =>
    if h : x = y then .isTrue (by rw [h]) else .isFalse (by simp [h])
  | .ok _, .error _ => .isFalse (by simp)
  | .error _, .ok _ => .isFalse (by simp)

/-- The `maxlen` / `_maxlen` configuration argument as the source sees it:
a Python `int`, a non-`int` object whose `__index__` method returns the
integer `n`, or an object with no `__index__` attribute at all (for
example a `float` such as `2.5`, or a string). -/
inductive CapArg where
  | int (n : Int)
  | indexable (n : Int)
  | nonIndexable
  deriving DecidableEq, Repr

/-- The coercion on lines 52-53 / 79-80 of `src/limiton.py`:
`if not isinstance(maxlen, int): maxlen = maxlen.__index__()`.
An `int` is taken as-is; a non-`int` has its `__index__` method called;
an object without that attribute makes the attribute lookup raise
`AttributeError`. -/
def coerceMaxlen : CapArg → Except PyErr Int
  | .int n => .ok n
  | .indexable n => .ok n
  | .nonIndexable => .error (.attributeError "object has no attribute __index__")

/-- A configured registry: the `_maxlen` bound (stored after validation, so
constructible registries always have `maxlen ≥ 1`) and the `_pump`
overflow flag (`true` = PUMP, `false` = REJECT). -/
structure Registry where
  maxlen : Nat
  pump : Bool
  deriving DecidableEq, Repr

/-- Mutable registry state: `refs` is the contents of the `_refs` deque,
oldest first; `nextId` is a fresh-instance counter (each constructor
invocation that returns hands out the current `nextId`); the remaining
fields are ghost event counters. -/
structure RegState where
  refs : List Nat
  nextId : Nat
  ctorCalls : Nat
  admissions : Nat
  evictions : Nat
  deriving DecidableEq, Repr

/-- State of a freshly configured registry: `_refs = deque([], maxlen=...)`
is empty, and no constructor has run. -/
def initState : RegState := ⟨[], 0, 0, 0, 0⟩

/-- `collections.deque.append` on a deque with a `maxlen` bound: the new
element goes to the right end and, when the append overflows the bound,
elements are discarded from the left (oldest first). -/
def dequeAppend (maxlen : Nat) (refs : List Nat) (x : Nat) : List Nat :=
  let r := refs ++ [x]
  if maxlen < r.length then r.drop (r.length - maxlen) else r

/-- `LimitonMeta.__new__` (lines 49-57): runs at class-definition time.
`_pump` defaults to `False` and `_maxlen` to `1` when absent from the class
attributes; a present `_maxlen` that is not an `int` is coerced through
`__index__`; a resulting value `< 1` raises
`ValueError('Limiton maximum instance limit must be positive.')`; otherwise
the class gets an empty `_refs` deque bounded by `_maxlen`. -/
def limitonMetaNew (maxlenAttr : Option CapArg) (pumpAttr : Option Bool) :
    Except PyErr Registry := do
  let pump := pumpAttr.getD false
  let m : Int ← match maxlenAttr with
    | none => pure 1
    | some a => coerceMaxlen a
  if m < 1 then
    throw (.valueError "Limiton maximum instance limit must be positive.")
  return { maxlen := m.toNat, pump := pump }

/-- `LimitonFactory.__init__` (lines 76-84): runs at factory-construction
time, with keyword defaults `maxlen=1`, `pump=False`, and performs the same
coercion and validation as `LimitonMeta.__new__`. -/
def limitonFactoryInit (maxlenArg : Option CapArg) (pumpArg : Option Bool) :
    Except PyErr Registry := do
  let pump := pumpArg.getD false
  let m : Int ← match maxlenArg with
    | none => pure 1
    | some a => coerceMaxlen a
  if m < 1 then
    throw (.valueError "Limiton maximum instance limit must be positive.")
  return { maxlen := m.toNat, pump := pump }

/-- Outcome of one acquire call: a `weakref.proxy` handle to an instance
identity, or a raised exception. -/
inductive AcquireResult where
  | handle (instId : Nat)
  | raised (e : PyErr)
  deriving DecidableEq, Repr

/-- The shared success path of both attachments (lines 61-63 and 88-90):
invoke the constructor, append the new instance to the `_refs` deque
(which, at `maxlen` occupancy, discards the oldest element on the left),
and return a `weakref.proxy` to the new instance.  A constructor that
raises propagates its exception before any mutation of `_refs`.  The ghost
counters record the constructor call, the admission, and how many elements
the bounded deque discarded. -/
def admitNew (maxlen : Nat) (s : RegState) (ctorFail : Option PyErr) :
    AcquireResult × RegState :=
  match ctorFail with
  | some e => (.raised e, { s with ctorCalls := s.ctorCalls + 1 })
  | none =>
    (.handle s.nextId,
      { refs := dequeAppend maxlen s.refs s.nextId,
        nextId := s.nextId + 1,
        ctorCalls := s.ctorCalls + 1,
        admissions := s.admissions + 1,
        evictions := s.evictions + (s.refs.length + 1 - maxlen) })

/-- `LimitonMeta.__call__` (lines 59-66): when the deque is below `_maxlen`
or `_pump` is set, construct and admit a new instance; otherwise, when
`_maxlen == 1`, return a proxy to the single resident `cls._refs[0]`
without constructing; otherwise raise
`IndexError('Maximum instance limit reached.')`. -/
def limitonMetaCall (cls : Registry) (s : RegState) (ctorFail : Option PyErr) :
    AcquireResult × RegState :=
  if s.refs.length < cls.maxlen || cls.pump then
    admitNew cls.maxlen s ctorFail
  else if cls.maxlen == 1 then
    match s.refs with
    | r :: _ => (.handle r, s)
    | [] => (.raised (.indexError "deque index out of range"), s)
  else
    (.raised (.indexError "Maximum instance limit reached."), s)

/-- `LimitonFactory.__call__` (lines 86-91): when the deque is below
`_maxlen` or `_pump` is set, construct and admit a new instance; otherwise
raise `IndexError('Maximum instance limit reached.')`.  Unlike
`LimitonMeta.__call__`, there is no `maxlen == 1` reuse branch. -/
def limitonFactoryCall (self : Registry) (s : RegState) (ctorFail : Option PyErr) :
    AcquireResult × RegState :=
  if s.refs.length < self.maxlen || self.pump then
    admitNew self.maxlen s ctorFail
  else
    (.raised (.indexError "Maximum instance limit reached."), s)

/-- Registry state after `n` acquire calls through `LimitonMeta.__call__`,
each with a successfully returning constructor, starting from the fresh
registry state. -/
def metaTrace (cls : Registry) : Nat → RegState
  | 0 => initState
  | n + 1 => (limitonMetaCall cls (metaTrace cls n) none).2

/-- Result of acquire call number `n + 1` (0-indexed `n`) through
`LimitonMeta.__call__` in the all-successful-constructor trace. -/
def metaRes (cls : Registry) (n : Nat) : AcquireResult :=
  (limitonMetaCall cls (metaTrace cls n) none).1

/-- Registry state after `n` acquire calls through
`LimitonFactory.__call__`, each with a successfully returning constructor,
starting from the fresh registry state. -/
def factoryTrace (self : Registry) : Nat → RegState
  | 0 => initState
  | n + 1 => (limitonFactoryCall self (factoryTrace self n) none).2

/-- Result of acquire call number `n + 1` (0-indexed `n`) through
`LimitonFactory.__call__` in the all-successful-constructor trace. -/
def factoryRes (self : Registry) (n : Nat) : AcquireResult :=
  (limitonFactoryCall self (factoryTrace self n) none).1

/-- Registry state after an arbitrary sequence of acquire calls through
`LimitonMeta.__call__`; each list entry gives that call's constructor
behaviour (`none` = returns, `some e` = raises `e`). -/
def runMeta (cls : Registry) (calls : List (Option PyErr)) : RegState :=
  calls.foldl (fun s c => (limitonMetaCall cls s c).2) initState

/-- Registry state after an arbitrary sequence of acquire calls through
`LimitonFactory.__call__`. -/
def runFactory (self : Registry) (calls : List (Option PyErr)) : RegState :=
  calls.foldl (fun s c => (limitonFactoryCall self s c).2) initState

/-- Dereference of a `weakref.proxy` handle under CPython reference
counting: it reaches the instance while some strong owner remains (a
registry slot in `resident`, or an owner outside the registry in
`otherOwners`), and raises `ReferenceError` once no strong owner is left. -/
def derefHandle (resident otherOwners : List Nat) (h : Nat) :
    Except PyErr Nat :=
  if resident.contains h || otherOwners.contains h then .ok h
  else .error .referenceError

/-- Boolean view of `derefHandle`: does dereferencing the handle succeed? -/
def derefSucceeds (resident otherOwners : List Nat) (h : Nat) : Bool :=
  match derefHandle resident otherOwners h with
  | .ok _ => true
  | .error _ => false

/-- CPython private name mangling: an identifier with at least two leading
underscores and at most one trailing underscore, occurring textually inside
the body of a class, is replaced by an underscore, the class name stripped
of its leading underscores, and the identifier. -/
def mangle (clsname ident : String) : String :=
  let stripped : List Char := clsname.data.dropWhile (fun c => c = '_')
  let leadUU : Bool := match ident.data with
    | '_' :: '_' :: _ => true
    | _ => false
  let trailUU : Bool := match ident.data.reverse with
    | '_' :: '_' :: _ => true
    | _ => false
  if leadUU && !trailUU && !stripped.isEmpty then
    ⟨'_' :: stripped ++ ident.data⟩
  else ident

/-- One statement of a class body, abstracted to what executing it resolves:
the name it binds in the class namespace and the identifiers its right-hand
side reads at class-body execution time (both subject to name mangling). -/
structure ClassStmt where
  target : String
  reads : List String
  deriving DecidableEq, Repr

/-- Names from the builtin namespace that `limiton.py` could reach. -/
def pyBuiltins : List String := ["object", "type"]

/-- Execute a class body: each statement first resolves its (mangled) read
identifiers against the class-local, then module-global, then builtin
namespace — an unresolved name raises `NameError` — and then binds its
(mangled) target in the class-local namespace. -/
def evalClassBody (clsname : String) (globalsNs : List String) :
    List ClassStmt → List String → Except PyErr (List String)
  | [], locals => .ok locals
  | st :: rest, locals =>
    match st.reads.find? (fun r =>
        let n := mangle clsname r
        !(locals.contains n || globalsNs.contains n || pyBuiltins.contains n)) with
    | some r => .error (.nameError (mangle clsname r))
    | none => evalClassBody clsname globalsNs rest (locals ++ [mangle clsname st.target])

/-- One top-level statement of the module: a plain binding (an `import`, a
module-level assignment or `def`, none of which mangle names), or a class
definition whose body is executed at that point. -/
inductive PyStmt where
  | bind (n : String)
  | classDef (n : String) (body : List ClassStmt)
  deriving DecidableEq, Repr

/-- Execute the module top to bottom, accumulating the global namespace;
the first exception aborts the whole module load. -/
def execStmts : List PyStmt → List String → Except PyErr (List String)
  | [], g => .ok g
  | .bind n :: rest, g => execStmts rest (g ++ [n])
  | .classDef n body :: rest, g =>
    match evalClassBody n g body [] with
    | .error e => .error e
    | .ok _ => execStmts rest (g ++ [n])

/-- The top-level statements of `src/limiton.py`, in source order.  The
module-level statements on lines 1-11 bind `weakref`, `deque`,
`__singletons` and `__singleton_callback` (module scope: no mangling).
Each class body is listed with the identifiers its statements read at
class-body execution time: `__slots__ = ()` reads none; line 18
`__call__ = __singleton_callback` and line 26 `__new__ = __singleton_callback`
each read `__singleton_callback`; a `def` statement inside a class body
reads nothing at definition time (its body's names resolve only when the
function is called, though they are mangled at compile time). -/
def limitonModule : List PyStmt :=
  [ .bind "weakref",
    .bind "deque",
    .bind "__singletons",
    .bind "__singleton_callback",
    .classDef "SingletonMeta"
      [⟨"__slots__", []⟩, ⟨"__call__", ["__singleton_callback"]⟩],
    .classDef "SingletonSuper"
      [⟨"__slots__", []⟩, ⟨"__new__", ["__singleton_callback"]⟩],
    .classDef "SingletonFactory"
      [⟨"__slots__", []⟩, ⟨"__init__", []⟩, ⟨"__call__", []⟩],
    .classDef "LimitonMeta"
      [⟨"__slots__", []⟩, ⟨"__new__", []⟩, ⟨"__call__", []⟩],
    .classDef "LimitonFactory"
      [⟨"__slots__", []⟩, ⟨"__init__", []⟩, ⟨"__call__", []⟩] ]

/-- Every name `limiton.py` ever binds — at module level or inside any
class body (mangled as bound there) — over the whole file, lines 1-91. -/
def allModuleBindings : List String :=
  [ "weakref", "deque", "__singletons", "__singleton_callback",
    "SingletonMeta", "SingletonSuper", "SingletonFactory",
    "LimitonMeta", "LimitonFactory",
    "__slots__", "__call__", "__new__", "__init__",
    "_ctype", "_refs", "_maxlen", "_pump",
    "instance", "cls", "self", "args", "kwargs",
    "name", "bases", "attrs", "ctype", "maxlen", "pump" ]

/-- Claim C2: inside the class bodies of `SingletonMeta` (line 18),
`SingletonSuper` (line 26) and `SingletonFactory.__call__` (line 39), the
reference to the module-level `__singleton_callback` is compiled under
private name mangling to `_SingletonMeta__singleton_callback` /
`_SingletonSuper__singleton_callback` /
`_SingletonFactory__singleton_callback`; none of those names is ever bound
anywhere in the module, so executing the `SingletonMeta` class body raises
`NameError` and loading the module fails there, before `LimitonMeta` or
`LimitonFactory` is ever defined. -/
theorem C2_module_load_fails_by_name_mangling :
    mangle "SingletonMeta" "__singleton_callback"
        = "_SingletonMeta__singleton_callback"
    ∧ mangle "SingletonSuper" "__singleton_callback"
        = "_SingletonSuper__singleton_callback"
    ∧ mangle "SingletonFactory" "__singleton_callback"
        = "_SingletonFactory__singleton_callback"
    ∧ (allModuleBindings.contains "_SingletonMeta__singleton_callback"
        || allModuleBindings.contains "_SingletonSuper__singleton_callback"
        || allModuleBindings.contains "_SingletonFactory__singleton_callback")
        = false
    ∧ execStmts limitonModule []
        = .error (.nameError "_SingletonMeta__singleton_callback") := by
  decide

/-- Claim C1 (code bug): with the default configuration `capacity = 1`,
`overflowMode = REJECT` — exactly what `LimitonFactory(T)` and a plain
`LimitonMeta` class produce — the metaclass attachment obeys the singleton
law (second acquire returns a handle to the same instance `0`, one
constructor call in total), but the factory attachment raises
`IndexError('Maximum instance limit reached.')` on the second acquire
instead of returning the resident instance. -/
theorem C1_factory_breaks_singleton_law :
    limitonFactoryInit none none = .ok { maxlen := 1, pump := false }
    ∧ limitonMetaNew none none = .ok { maxlen := 1, pump := false }
    ∧ metaRes { maxlen := 1, pump := false } 0 = .handle 0
    ∧ metaRes { maxlen := 1, pump := false } 1 = .handle 0
    ∧ (metaTrace { maxlen := 1, pump := false } 2).ctorCalls = 1
    ∧ factoryRes { maxlen := 1, pump := false } 0 = .handle 0
    ∧ factoryRes { maxlen := 1, pump := false } 1
        = .raised (.indexError "Maximum instance limit reached.") := by
  refine ⟨rfl, rfl, rfl, rfl, rfl, rfl, rfl⟩

/-- Claim C3 (code bug): the two attachments do not behave identically.
From the same full state of a `capacity = 1`, REJECT registry (one resident
instance `0`), `LimitonMeta.__call__` returns a handle to the resident
instance while `LimitonFactory.__call__` raises
`IndexError('Maximum instance limit reached.')`: the factory does not
implement the `capacity == 1` reuse case of the §4.1 acquire contract. -/
theorem C3_attachments_disagree_at_full_singleton :
    limitonMetaCall { maxlen := 1, pump := false } ⟨[0], 1, 1, 1, 0⟩ none
      = (.handle 0, ⟨[0], 1, 1, 1, 0⟩)
    ∧ limitonFactoryCall { maxlen := 1, pump := false } ⟨[0], 1, 1, 1, 0⟩ none
      = (.raised (.indexError "Maximum instance limit reached."),
         ⟨[0], 1, 1, 1, 0⟩) := by
  refine ⟨rfl, rfl⟩

/-- A property preserved by every step of a fold holds after the fold. -/
theorem foldlPreserve {α β : Type} (f : β → α → β) (P : β → Prop)
    (hstep : ∀ b a, P b → P (f b a)) :
    ∀ (l : List α) (b : β), P b → P (l.foldl f b)
  | [], _, hb => hb
  | a :: l, b, hb => foldlPreserve f P hstep l (f b a) (hstep b a hb)

/-- Length of a bounded deque append: one more element, capped at the
`maxlen` bound. -/
theorem dequeAppend_length (m : Nat) (l : List Nat) (x : Nat) :
    (dequeAppend m l x).length = min (l.length + 1) m := by
  simp only [dequeAppend]
  split <;> simp_all
  omega

/-- The state after `LimitonMeta.__call__` either keeps `_refs` untouched
(constructor failure, singleton reuse, or capacity rejection) or replaces
it by the bounded append of the fresh instance. -/
theorem metaCall_refs_cases (cls : Registry) (s : RegState) (c : Option PyErr) :
    (limitonMetaCall cls s c).2.refs = s.refs ∨
    (limitonMetaCall cls s c).2.refs = dequeAppend cls.maxlen s.refs s.nextId := by
  unfold limitonMetaCall admitNew
  split
  · cases c <;> simp
  · split
    · cases hr : s.refs <;> simp [hr]
    · simp

/-- The state after `LimitonFactory.__call__` either keeps `_refs`
untouched or replaces it by the bounded append of the fresh instance. -/
theorem factoryCall_refs_cases (self : Registry) (s : RegState) (c : Option PyErr) :
    (limitonFactoryCall self s c).2.refs = s.refs ∨
    (limitonFactoryCall self s c).2.refs = dequeAppend self.maxlen s.refs s.nextId := by
  unfold limitonFactoryCall admitNew
  split
  · cases c <;> simp
  · simp

/-- Claim C8: for every registry configuration, either attachment, and every
acquire sequence (successful and failing constructor calls mixed), the
number of resident slots never exceeds the configured capacity: it is `0`
right after construction and stays `≤ maxlen` after every call. -/
theorem C8_slots_bounded_by_capacity (cls : Registry)
    (calls : List (Option PyErr)) :
    initState.refs.length ≤ cls.maxlen
    ∧ (runMeta cls calls).refs.length ≤ cls.maxlen
    ∧ (runFactory cls calls).refs.length ≤ cls.maxlen := by
  refine ⟨Nat.zero_le _, ?_, ?_⟩
  · exact foldlPreserve _ (fun st => st.refs.length ≤ cls.maxlen)
      (fun st c h => by
        rcases metaCall_refs_cases cls st c with hr | hr <;> rw [hr]
        · exact h
        · rw [dequeAppend_length]; omega)
      calls initState (Nat.zero_le _)
  · exact foldlPreserve _ (fun st => st.refs.length ≤ cls.maxlen)
      (fun st c h => by
        rcases factoryCall_refs_cases cls st c with hr | hr <;> rw [hr]
        · exact h
        · rw [dequeAppend_length]; omega)
      calls initState (Nat.zero_le _)

/-- One step of either attachment preserves the accounting equation
`occupancy + evictions = admissions`: a constructor failure or a rejection
changes nothing, an admission below capacity adds one resident and one
admission, and a PUMP admission at capacity adds one admission and one
eviction. -/
theorem metaCall_accounting (cls : Registry) (s : RegState) (c : Option PyErr)
    (h : s.refs.length + s.evictions = s.admissions) :
    (limitonMetaCall cls s c).2.refs.length + (limitonMetaCall cls s c).2.evictions
      = (limitonMetaCall cls s c).2.admissions := by
  unfold limitonMetaCall admitNew
  split
  · cases c
    · simp [dequeAppend_length]
      omega
    · simpa using h
  · split
    · cases hr : s.refs <;> simp [hr] <;> simp [hr] at h <;> omega
    · simpa using h

/-- `LimitonFactory.__call__` and `LimitonMeta.__call__` always leave the
registry in the same state: the admit branch is shared, and every other
branch of either function returns the state unchanged. -/
theorem factoryCall_state_eq (cls : Registry) (s : RegState) (c : Option PyErr) :
    (limitonFactoryCall cls s c).2 = (limitonMetaCall cls s c).2 := by
  unfold limitonFactoryCall limitonMetaCall
  by_cases h : (s.refs.length < cls.maxlen || cls.pump) = true
  · simp [h]
  · by_cases h1 : (cls.maxlen == 1) = true
    · simp only [Bool.not_eq_true] at h
      simp [h, h1]
      cases hr : s.refs <;> simp [hr]
    · simp only [Bool.not_eq_true] at h
      simp [h, h1]

/-- Claim C9: at every observation point of any acquire sequence, through
either attachment, the slots occupancy equals the number of successful
admissions so far minus the number of PUMP-triggered evictions so far
(failing calls and singleton-reuse returns change neither counter). -/
theorem C9_occupancy_equals_admissions_minus_evictions (cls : Registry)
    (calls : List (Option PyErr)) :
    (runMeta cls calls).refs.length
        = (runMeta cls calls).admissions - (runMeta cls calls).evictions
    ∧ (runMeta cls calls).evictions ≤ (runMeta cls calls).admissions
    ∧ (runFactory cls calls).refs.length
        = (runFactory cls calls).admissions - (runFactory cls calls).evictions
    ∧ (runFactory cls calls).evictions ≤ (runFactory cls calls).admissions := by
  have hm : (runMeta cls calls).refs.length + (runMeta cls calls).evictions
      = (runMeta cls calls).admissions :=
    foldlPreserve _ (fun st => st.refs.length + st.evictions = st.admissions)
      (fun st c h => metaCall_accounting cls st c h) calls initState rfl
  have hf : (runFactory cls calls).refs.length + (runFactory cls calls).evictions
      = (runFactory cls calls).admissions :=
    foldlPreserve _ (fun st => st.refs.length + st.evictions = st.admissions)
      (fun st c h => by
        rw [factoryCall_state_eq]
        exact metaCall_accounting cls st c h) calls initState rfl
  exact ⟨by omega, by omega, by omega, by omega⟩

/-- The all-successful-constructor traces of the two attachments pass
through the same registry states. -/
theorem factoryTrace_eq (cls : Registry) : ∀ n, factoryTrace cls n = metaTrace cls n
  | 0 => rfl
  | n + 1 => by
    show (limitonFactoryCall cls (factoryTrace cls n) none).2 = _
    rw [factoryTrace_eq cls n, factoryCall_state_eq]
    rfl

/-- Closed form of the REJECT-mode trace: the first `maxlen` successful
calls admit instances `0, 1, ...` in order and afterwards the state never
changes again (singleton reuse when `maxlen = 1`, rejection otherwise). -/
theorem metaTrace_reject (cls : Registry) (hp : cls.pump = false) :
    ∀ n, metaTrace cls n =
      { refs := List.range (min n cls.maxlen), nextId := min n cls.maxlen,
        ctorCalls := min n cls.maxlen, admissions := min n cls.maxlen,
        evictions := 0 } := by
  intro n
  induction n with
  | zero => simp [metaTrace, initState]
  | succ n ih =>
    show (limitonMetaCall cls (metaTrace cls n) none).2 = _
    rw [ih]
    unfold limitonMetaCall admitNew
    by_cases h : n < cls.maxlen
    · have hc : (decide ((List.range (min n cls.maxlen)).length < cls.maxlen) || cls.pump) = true := by
        simp [List.length_range]
        omega
      rw [hc]
      simp only [if_true]
      have hmin : min n cls.maxlen = n := by omega
      have hmin1 : min (n + 1) cls.maxlen = n + 1 := by omega
      simp only [hmin, hmin1, dequeAppend, List.length_range, List.length_append,
        List.length_singleton]
      have hno : ¬ (cls.maxlen < n + 1) := by omega
      simp only [List.range_succ, hno, if_false]
      have hz : 0 + (n + 1 - cls.maxlen) = 0 := by omega
      rw [hz]
    · have hmin : min n cls.maxlen = cls.maxlen := by omega
      have hmin1 : min (n + 1) cls.maxlen = cls.maxlen := by omega
      have hc : (decide ((List.range (min n cls.maxlen)).length < cls.maxlen) || cls.pump) = false := by
        simp [List.length_range, hp]
        omega
      rw [hc]
      simp only [Bool.false_eq_true, if_false]
      by_cases h1 : cls.maxlen = 1
      · have hb : (cls.maxlen == 1) = true := by simp [h1]
        rw [hb]
        simp only [if_true]
        rw [h1] at hmin hmin1 ⊢
        rw [hmin, hmin1]
        rfl
      · have hb : (cls.maxlen == 1) = false := by simp [h1]
        rw [hb]
        simp only [Bool.false_eq_true, if_false]
        rw [hmin, hmin1]

/-- Bounded-deque append of the next fresh instance to a PUMP-mode
residence window: appending `n` to the last-`m` window of `0..n-1` gives
the last-`m` window of `0..n`. -/
theorem dequeAppend_range (m n : Nat) (hm : 1 ≤ m) :
    dequeAppend m ((List.range n).drop (n - m)) n
      = (List.range (n + 1)).drop (n + 1 - m) := by
  simp only [dequeAppend]
  by_cases h : n < m
  · have h0 : n - m = 0 := by omega
    have h1 : n + 1 - m = 0 := by omega
    simp only [h0, h1, List.drop_zero]
    have hno : ¬ (m < (List.range n ++ [n]).length) := by
      simp [List.length_range]
      omega
    rw [if_neg hno, List.range_succ]
  · have hlen : ((List.range n).drop (n - m) ++ [n]).length = m + 1 := by
      simp [List.length_drop, List.length_range]
      omega
    have hlt : m < ((List.range n).drop (n - m) ++ [n]).length := by
      rw [hlen]
      omega
    rw [if_pos hlt, hlen]
    have h1 : m + 1 - m = 1 := by omega
    rw [h1]
    rw [List.drop_append_of_le_length, List.drop_drop]
    · have harith : n - m + 1 = n + 1 - m := by omega
      rw [harith, List.range_succ, List.drop_append_of_le_length]
      simp [List.length_range]
      omega
    · simp [List.length_drop, List.length_range]
      omega

/-- Closed form of the PUMP-mode trace: every call admits a fresh instance,
and the residents are always the most recent `maxlen` instances (the window
`drop (n - maxlen)` of `0..n-1`), with `n - maxlen` evictions so far. -/
theorem metaTrace_pump (cls : Registry) (hp : cls.pump = true)
    (hm : 1 ≤ cls.maxlen) :
    ∀ n, metaTrace cls n =
      { refs := (List.range n).drop (n - cls.maxlen), nextId := n,
        ctorCalls := n, admissions := n, evictions := n - cls.maxlen } := by
  intro n
  induction n with
  | zero => simp [metaTrace, initState]
  | succ n ih =>
    show (limitonMetaCall cls (metaTrace cls n) none).2 = _
    rw [ih]
    unfold limitonMetaCall admitNew
    have hc : (decide (((List.range n).drop (n - cls.maxlen)).length < cls.maxlen)
        || cls.pump) = true := by
      simp [hp]
    rw [hc]
    simp only [if_true]
    rw [dequeAppend_range cls.maxlen n hm]
    have he : (n - cls.maxlen) + (((List.range n).drop (n - cls.maxlen)).length + 1
        - cls.maxlen) = n + 1 - cls.maxlen := by
      simp [List.length_drop, List.length_range]
      omega
    rw [he]

/-- In REJECT mode, acquire call `i + 1` with `i` below capacity admits
fresh instance `i` through the metaclass attachment. -/
theorem metaRes_reject_lt (cls : Registry) (hp : cls.pump = false)
    (i : Nat) (hi : i < cls.maxlen) : metaRes cls i = .handle i := by
  unfold metaRes
  rw [metaTrace_reject cls hp i]
  unfold limitonMetaCall admitNew
  have hmin : min i cls.maxlen = i := by omega
  rw [hmin]
  have hc : (decide ((List.range i).length < cls.maxlen) || cls.pump) = true := by
    simp [List.length_range]
    omega
  rw [hc]
  simp

/-- In REJECT mode, acquire call `i + 1` with `i` below capacity admits
fresh instance `i` through the factory attachment. -/
theorem factoryRes_reject_lt (cls : Registry) (hp : cls.pump = false)
    (i : Nat) (hi : i < cls.maxlen) : factoryRes cls i = .handle i := by
  unfold factoryRes
  rw [factoryTrace_eq, metaTrace_reject cls hp i]
  unfold limitonFactoryCall admitNew
  have hmin : min i cls.maxlen = i := by omega
  rw [hmin]
  have hc : (decide ((List.range i).length < cls.maxlen) || cls.pump) = true := by
    simp [List.length_range]
    omega
  rw [hc]
  simp

/-- In REJECT mode at full occupancy with capacity above one, the
metaclass attachment raises the capacity error. -/
theorem metaRes_reject_full (cls : Registry) (hp : cls.pump = false)
    (h1 : 1 < cls.maxlen) :
    metaRes cls cls.maxlen = .raised (.indexError "Maximum instance limit reached.") := by
  unfold metaRes
  rw [metaTrace_reject cls hp cls.maxlen]
  unfold limitonMetaCall
  have hmin : min cls.maxlen cls.maxlen = cls.maxlen := by omega
  rw [hmin]
  have hc : (decide ((List.range cls.maxlen).length < cls.maxlen) || cls.pump) = false := by
    simp [List.length_range, hp]
  rw [hc]
  have hb : (cls.maxlen == 1) = false := by
    simp
    omega
  rw [hb]
  simp

/-- In REJECT mode at full occupancy, the factory attachment raises the
capacity error — for every capacity, including capacity one. -/
theorem factoryRes_reject_full (cls : Registry) (hp : cls.pump = false) :
    factoryRes cls cls.maxlen = .raised (.indexError "Maximum instance limit reached.") := by
  unfold factoryRes
  rw [factoryTrace_eq, metaTrace_reject cls hp cls.maxlen]
  unfold limitonFactoryCall
  have hmin : min cls.maxlen cls.maxlen = cls.maxlen := by omega
  rw [hmin]
  have hc : (decide ((List.range cls.maxlen).length < cls.maxlen) || cls.pump) = false := by
    simp [List.length_range, hp]
  rw [hc]
  simp

/-- Claim C4: for every registry with capacity `N > 1` and REJECT mode,
through either attachment, the first `N` acquire calls each construct and
admit a fresh instance (`N` constructor calls, occupancy `N`), and the
`(N+1)`-th call raises `IndexError('Maximum instance limit reached.')`
without invoking the constructor, leaving occupancy exactly `N`. -/
theorem C4_reject_capacity_exceeded (cls : Registry) (N : Nat)
    (hp : cls.pump = false) (hN : cls.maxlen = N) (h1 : 1 < N) :
    ((List.range N).all fun i => metaRes cls i == .handle i) = true
    ∧ (metaTrace cls N).refs.length = N
    ∧ (metaTrace cls N).ctorCalls = N
    ∧ metaRes cls N = .raised (.indexError "Maximum instance limit reached.")
    ∧ (metaTrace cls (N + 1)).refs.length = N
    ∧ (metaTrace cls (N + 1)).ctorCalls = N
    ∧ ((List.range N).all fun i => factoryRes cls i == .handle i) = true
    ∧ factoryRes cls N = .raised (.indexError "Maximum instance limit reached.")
    ∧ (factoryTrace cls (N + 1)).refs.length = N
    ∧ (factoryTrace cls (N + 1)).ctorCalls = N := by
  subst hN
  refine ⟨?_, ?_, ?_, ?_, ?_, ?_, ?_, ?_, ?_, ?_⟩
  · rw [List.all_eq_true]
    intro i hi
    rw [List.mem_range] at hi
    simp [metaRes_reject_lt cls hp i hi]
  · rw [metaTrace_reject cls hp]
    simp [List.length_range]
  · rw [metaTrace_reject cls hp]
    simp
  · exact metaRes_reject_full cls hp h1
  · rw [metaTrace_reject cls hp]
    simp [List.length_range]
  · rw [metaTrace_reject cls hp]
    simp
  · rw [List.all_eq_true]
    intro i hi
    rw [List.mem_range] at hi
    simp [factoryRes_reject_lt cls hp i hi]
  · exact factoryRes_reject_full cls hp
  · rw [factoryTrace_eq, metaTrace_reject cls hp]
    simp [List.length_range]
  · rw [factoryTrace_eq, metaTrace_reject cls hp]
    simp

/-- Claim C4 witness at capacity `N = 3` (the spec's concrete scenario B). -/
theorem C4_reject_capacity_exceeded_witness :
    ((List.range 3).all fun i => metaRes ⟨3, false⟩ i == .handle i) = true
    ∧ (metaTrace ⟨3, false⟩ 3).refs.length = 3
    ∧ (metaTrace ⟨3, false⟩ 3).ctorCalls = 3
    ∧ metaRes ⟨3, false⟩ 3 = .raised (.indexError "Maximum instance limit reached.")
    ∧ (metaTrace ⟨3, false⟩ 4).refs.length = 3
    ∧ (metaTrace ⟨3, false⟩ 4).ctorCalls = 3
    ∧ ((List.range 3).all fun i => factoryRes ⟨3, false⟩ i == .handle i) = true
    ∧ factoryRes ⟨3, false⟩ 3 = .raised (.indexError "Maximum instance limit reached.")
    ∧ (factoryTrace ⟨3, false⟩ 4).refs.length = 3
    ∧ (factoryTrace ⟨3, false⟩ 4).ctorCalls = 3 :=
  C4_reject_capacity_exceeded ⟨3, false⟩ 3 rfl rfl (by decide)

/-- In PUMP mode every acquire call in the successful trace admits the
fresh instance whose identity equals the call index, through the
metaclass attachment. -/
theorem metaRes_pump (cls : Registry) (hp : cls.pump = true)
    (hm : 1 ≤ cls.maxlen) (n : Nat) : metaRes cls n = .handle n := by
  unfold metaRes
  rw [metaTrace_pump cls hp hm n]
  unfold limitonMetaCall admitNew
  have hc : (decide (((List.range n).drop (n - cls.maxlen)).length < cls.maxlen)
      || cls.pump) = true := by
    simp [hp]
  rw [hc]
  simp

/-- In PUMP mode every acquire call in the successful trace admits the
fresh instance whose identity equals the call index, through the factory
attachment. -/
theorem factoryRes_pump (cls : Registry) (hp : cls.pump = true)
    (hm : 1 ≤ cls.maxlen) (n : Nat) : factoryRes cls n = .handle n := by
  unfold factoryRes
  rw [factoryTrace_eq, metaTrace_pump cls hp hm n]
  unfold limitonFactoryCall admitNew
  have hc : (decide (((List.range n).drop (n - cls.maxlen)).length < cls.maxlen)
      || cls.pump) = true := by
    simp [hp]
  rw [hc]
  simp

/-- Claim C5: for every registry with PUMP mode and capacity `N ≥ 1`,
through either attachment, after `N` successful acquisitions the slots hold
instances `0..N-1` in admission order; the `(N+1)`-th call succeeds,
constructs a new instance (`N + 1` constructor calls in total), appends it
at the tail and evicts the head (oldest) resident, for exactly one
eviction. -/
theorem C5_pump_evicts_oldest (cls : Registry) (N : Nat)
    (hp : cls.pump = true) (hN : cls.maxlen = N) (h1 : 1 ≤ N) :
    (metaTrace cls N).refs = List.range N
    ∧ metaRes cls N = .handle N
    ∧ (metaTrace cls (N + 1)).refs = ((metaTrace cls N).refs).drop 1 ++ [N]
    ∧ (metaTrace cls (N + 1)).ctorCalls = N + 1
    ∧ (metaTrace cls (N + 1)).evictions = 1
    ∧ (factoryTrace cls N).refs = List.range N
    ∧ factoryRes cls N = .handle N
    ∧ (factoryTrace cls (N + 1)).refs = ((factoryTrace cls N).refs).drop 1 ++ [N]
    ∧ (factoryTrace cls (N + 1)).ctorCalls = N + 1
    ∧ (factoryTrace cls (N + 1)).evictions = 1 := by
  subst hN
  have hm : 1 ≤ cls.maxlen := h1
  have htrN : (metaTrace cls cls.maxlen).refs = List.range cls.maxlen := by
    rw [metaTrace_pump cls hp hm]
    simp
  have htrS : (metaTrace cls (cls.maxlen + 1)).refs
      = ((metaTrace cls cls.maxlen).refs).drop 1 ++ [cls.maxlen] := by
    rw [metaTrace_pump cls hp hm, metaTrace_pump cls hp hm]
    simp only []
    have h1e : cls.maxlen + 1 - cls.maxlen = 1 := by omega
    have h0e : cls.maxlen - cls.maxlen = 0 := by omega
    rw [h1e, h0e, List.drop_zero, List.range_succ, List.drop_append_of_le_length]
    simpa [List.length_range] using hm
  refine ⟨htrN, metaRes_pump cls hp hm cls.maxlen, htrS, ?_, ?_,
    by rw [factoryTrace_eq]; exact htrN, factoryRes_pump cls hp hm cls.maxlen,
    by rw [factoryTrace_eq, factoryTrace_eq]; exact htrS, ?_, ?_⟩
  · rw [metaTrace_pump cls hp hm]
  · rw [metaTrace_pump cls hp hm]
    simp
  · rw [factoryTrace_eq, metaTrace_pump cls hp hm]
  · rw [factoryTrace_eq, metaTrace_pump cls hp hm]
    simp

/-- Claim C5 witness at capacity `N = 2` (the spec's concrete scenario C:
after three acquisitions of instances `0`, `1`, `2`, the slots hold exactly
`[1, 2]`, that is, the second and third instances). -/
theorem C5_pump_evicts_oldest_witness :
    (metaTrace ⟨2, true⟩ 2).refs = List.range 2
    ∧ metaRes ⟨2, true⟩ 2 = .handle 2
    ∧ (metaTrace ⟨2, true⟩ 3).refs = ((metaTrace ⟨2, true⟩ 2).refs).drop 1 ++ [2]
    ∧ (metaTrace ⟨2, true⟩ 3).ctorCalls = 3
    ∧ (metaTrace ⟨2, true⟩ 3).evictions = 1
    ∧ (factoryTrace ⟨2, true⟩ 2).refs = List.range 2
    ∧ factoryRes ⟨2, true⟩ 2 = .handle 2
    ∧ (factoryTrace ⟨2, true⟩ 3).refs = ((factoryTrace ⟨2, true⟩ 2).refs).drop 1 ++ [2]
    ∧ (factoryTrace ⟨2, true⟩ 3).ctorCalls = 3
    ∧ (factoryTrace ⟨2, true⟩ 3).evictions = 1 :=
  C5_pump_evicts_oldest ⟨2, true⟩ 2 rfl rfl (by decide)

/-- Claim C6 counterexample: a capacity value with no integer coercion (no
`__index__` attribute, as for the float `2.5`) makes registry construction
fail with `AttributeError` from the `maxlen.__index__()` attribute lookup,
not with the `ValueError('Limiton maximum instance limit must be
positive.')` that plays the spec's `ConfigurationError` — in both
attachments. -/
theorem C6_nonintegral_capacity_counterexample :
    limitonMetaNew (some .nonIndexable) none
      = .error (.attributeError "object has no attribute __index__")
    ∧ limitonFactoryInit (some .nonIndexable) none
      = .error (.attributeError "object has no attribute __index__")
    ∧ PyErr.attributeError "object has no attribute __index__"
        ≠ PyErr.valueError "Limiton maximum instance limit must be positive." :=
  ⟨rfl, rfl, by decide⟩

/-- Claim C6 amended: every capacity value that does coerce to an integer
(a Python `int`, or any object whose `__index__` returns one) below `1`
makes registry construction fail with the configuration `ValueError` — at
type-definition time for `LimitonMeta` and at factory-construction time
for `LimitonFactory`, before any acquire is possible; in particular
capacity `0` raises it at construction. -/
theorem C6_nonpositive_capacity_rejected (a : CapArg) (n : Int)
    (p : Option Bool) (hc : coerceMaxlen a = .ok n) (hn : n < 1) :
    limitonMetaNew (some a) p
      = .error (.valueError "Limiton maximum instance limit must be positive.")
    ∧ limitonFactoryInit (some a) p
      = .error (.valueError "Limiton maximum instance limit must be positive.") := by
  cases a with
  | int m =>
    simp only [coerceMaxlen, Except.ok.injEq] at hc
    subst hc
    constructor <;>
      simp [limitonMetaNew, limitonFactoryInit, coerceMaxlen, hn, bind,
        Except.bind, throw, throwThe, MonadExceptOf.throw, Functor.map,
        Except.map]
  | indexable m =>
    simp only [coerceMaxlen, Except.ok.injEq] at hc
    subst hc
    constructor <;>
      simp [limitonMetaNew, limitonFactoryInit, coerceMaxlen, hn, bind,
        Except.bind, throw, throwThe, MonadExceptOf.throw, Functor.map,
        Except.map]
  | nonIndexable =>
    simp [coerceMaxlen] at hc

/-- Claim C6 amended witness: capacity `0` (an `int`), the spec's concrete
scenario D. -/
theorem C6_nonpositive_capacity_rejected_witness :
    limitonMetaNew (some (.int 0)) none
      = .error (.valueError "Limiton maximum instance limit must be positive.")
    ∧ limitonFactoryInit (some (.int 0)) none
      = .error (.valueError "Limiton maximum instance limit must be positive.") :=
  C6_nonpositive_capacity_rejected (.int 0) 0 none rfl (by decide)

/-- Any raising call through the metaclass attachment leaves the `_refs`
slots untouched. -/
theorem metaCall_raised_refs (cls : Registry) (s : RegState)
    (c : Option PyErr) (e : PyErr)
    (h : (limitonMetaCall cls s c).1 = .raised e) :
    (limitonMetaCall cls s c).2.refs = s.refs := by
  unfold limitonMetaCall admitNew at h ⊢
  split at h <;> split
  · cases c
    · exact absurd h (by simp)
    · rfl
  · simp_all
  · simp_all
  · split at h <;> split
    · cases hr : s.refs <;> simp [hr]
    · simp_all
    · simp_all
    · rfl

/-- Any raising call through the factory attachment leaves the `_refs`
slots untouched. -/
theorem factoryCall_raised_refs (self : Registry) (s : RegState)
    (c : Option PyErr) (e : PyErr)
    (h : (limitonFactoryCall self s c).1 = .raised e) :
    (limitonFactoryCall self s c).2.refs = s.refs := by
  unfold limitonFactoryCall admitNew at h ⊢
  split at h <;> split
  · cases c
    · exact absurd h (by simp)
    · rfl
  · simp_all
  · simp_all
  · rfl

/-- Claim C7: acquire is atomic with respect to failure, for both
attachments.  Whenever a call raises — whether the capacity check fails or
the invoked constructor itself raises — the `_refs` slots are left exactly
as they were, and a constructor exception propagates out of the call
unaltered (the admit condition of line 60 / line 87 guards the only branch
that invokes the constructor). -/
theorem C7_failed_acquire_is_atomic
    (m1 : Registry) (s1 : RegState) (c1 : Option PyErr) (e1 : PyErr)
    (m2 : Registry) (s2 : RegState) (c2 : Option PyErr) (e2 : PyErr)
    (m3 : Registry) (s3 : RegState) (e3 : PyErr)
    (m4 : Registry) (s4 : RegState) (e4 : PyErr)
    (h1 : (limitonMetaCall m1 s1 c1).1 = .raised e1)
    (h2 : (limitonFactoryCall m2 s2 c2).1 = .raised e2)
    (h3 : s3.refs.length < m3.maxlen ∨ m3.pump = true)
    (h4 : s4.refs.length < m4.maxlen ∨ m4.pump = true) :
    (limitonMetaCall m1 s1 c1).2.refs = s1.refs
    ∧ (limitonFactoryCall m2 s2 c2).2.refs = s2.refs
    ∧ (limitonMetaCall m3 s3 (some e3)).1 = .raised e3
    ∧ (limitonMetaCall m3 s3 (some e3)).2.refs = s3.refs
    ∧ (limitonFactoryCall m4 s4 (some e4)).1 = .raised e4
    ∧ (limitonFactoryCall m4 s4 (some e4)).2.refs = s4.refs := by
  have hc3 : (decide (s3.refs.length < m3.maxlen) || m3.pump) = true := by
    rcases h3 with h | h <;> simp [h]
  have hc4 : (decide (s4.refs.length < m4.maxlen) || m4.pump) = true := by
    rcases h4 with h | h <;> simp [h]
  refine ⟨metaCall_raised_refs m1 s1 c1 e1 h1,
    factoryCall_raised_refs m2 s2 c2 e2 h2, ?_, ?_, ?_, ?_⟩
  · unfold limitonMetaCall admitNew
    rw [hc3]
    simp
  · unfold limitonMetaCall admitNew
    rw [hc3]
    simp
  · unfold limitonFactoryCall admitNew
    rw [hc4]
    simp
  · unfold limitonFactoryCall admitNew
    rw [hc4]
    simp

/-- Claim C7 witness: a REJECT rejection at full capacity `3`, a factory
rejection at full capacity `1`, and constructor exceptions raised inside
the admit branch of each attachment, all leave the slots untouched. -/
theorem C7_failed_acquire_is_atomic_witness :
    (limitonMetaCall ⟨3, false⟩ ⟨[0, 1, 2], 3, 3, 3, 0⟩ none).2.refs = [0, 1, 2]
    ∧ (limitonFactoryCall ⟨1, false⟩ ⟨[0], 1, 1, 1, 0⟩ none).2.refs = [0]
    ∧ (limitonMetaCall ⟨1, false⟩ initState (some (.userError 7))).1
        = .raised (.userError 7)
    ∧ (limitonMetaCall ⟨1, false⟩ initState (some (.userError 7))).2.refs
        = initState.refs
    ∧ (limitonFactoryCall ⟨2, true⟩ ⟨[0, 1], 2, 2, 2, 0⟩ (some (.userError 9))).1
        = .raised (.userError 9)
    ∧ (limitonFactoryCall ⟨2, true⟩ ⟨[0, 1], 2, 2, 2, 0⟩ (some (.userError 9))).2.refs
        = [0, 1] :=
  C7_failed_acquire_is_atomic
    ⟨3, false⟩ ⟨[0, 1, 2], 3, 3, 3, 0⟩ none (.indexError "Maximum instance limit reached.")
    ⟨1, false⟩ ⟨[0], 1, 1, 1, 0⟩ none (.indexError "Maximum instance limit reached.")
    ⟨1, false⟩ initState (.userError 7)
    ⟨2, true⟩ ⟨[0, 1], 2, 2, 2, 0⟩ (.userError 9)
    rfl rfl (Or.inl (by decide)) (Or.inr rfl)

/-- Claim C10: handles are non-owning and report a well-defined expiry.
When a PUMP-mode acquire at full occupancy evicts the oldest resident `h`
(the head of the deque) and no owner outside the registry holds that
instance, dereferencing any handle previously issued for `h` raises
`ReferenceError` rather than reaching the instance, while every handle to
a still-resident instance (including the newly admitted one) continues to
dereference successfully — identically through either attachment. -/
theorem C10_evicted_handles_expire (cls : Registry) (s : RegState)
    (h : Nat) (t : List Nat)
    (hp : cls.pump = true) (hs : s.refs = h :: t)
    (hfull : s.refs.length = cls.maxlen)
    (hnotin : t.contains h = false) (hfresh : h < s.nextId) :
    (limitonMetaCall cls s none).1 = .handle s.nextId
    ∧ (limitonMetaCall cls s none).2.refs = t ++ [s.nextId]
    ∧ (limitonFactoryCall cls s none).1 = .handle s.nextId
    ∧ (limitonFactoryCall cls s none).2.refs = t ++ [s.nextId]
    ∧ derefHandle (t ++ [s.nextId]) [] h = .error .referenceError
    ∧ ((t ++ [s.nextId]).all (derefSucceeds (t ++ [s.nextId]) [])) = true := by
  have hq : dequeAppend cls.maxlen s.refs s.nextId = t ++ [s.nextId] := by
    simp only [dequeAppend, hs]
    have hlt : cls.maxlen < ((h :: t) ++ [s.nextId]).length := by
      simp [← hfull, hs]
    rw [if_pos hlt]
    have hd : ((h :: t) ++ [s.nextId]).length - cls.maxlen = 1 := by
      simp [← hfull, hs]
    rw [hd]
    simp
  have hc : (decide (s.refs.length < cls.maxlen) || cls.pump) = true := by
    simp [hp]
  have hmeta : limitonMetaCall cls s none
      = (.handle s.nextId, (admitNew cls.maxlen s none).2) := by
    unfold limitonMetaCall
    rw [hc]
    simp [admitNew]
  have hfact : limitonFactoryCall cls s none
      = (.handle s.nextId, (admitNew cls.maxlen s none).2) := by
    unfold limitonFactoryCall
    rw [hc]
    simp [admitNew]
  have hrefs : (admitNew cls.maxlen s none).2.refs = t ++ [s.nextId] := by
    simp [admitNew, hq]
  have hnotin2 : h ∉ t := by simpa using hnotin
  refine ⟨by rw [hmeta], by rw [hmeta]; exact hrefs, by rw [hfact],
    by rw [hfact]; exact hrefs, ?_, ?_⟩
  · unfold derefHandle
    have hcond : ((t ++ [s.nextId]).contains h || ([] : List Nat).contains h)
        = false := by
      simp
      exact ⟨hnotin2, by omega⟩
    rw [hcond]
    simp
  · rw [List.all_eq_true]
    intro x hx
    unfold derefSucceeds derefHandle
    have hcond : ((t ++ [s.nextId]).contains x || ([] : List Nat).contains x)
        = true := by
      simp
      simpa using hx
    rw [hcond]
    simp

/-- Claim C10 witness: a PUMP registry of capacity `2` holding instances
`0` and `1`; the next acquire admits instance `2` and evicts instance `0`,
whose handle then raises on dereference while handles to `1` and `2` still
dereference. -/
theorem C10_evicted_handles_expire_witness :
    (limitonMetaCall ⟨2, true⟩ ⟨[0, 1], 2, 2, 2, 0⟩ none).1 = .handle 2
    ∧ (limitonMetaCall ⟨2, true⟩ ⟨[0, 1], 2, 2, 2, 0⟩ none).2.refs = [1] ++ [2]
    ∧ (limitonFactoryCall ⟨2, true⟩ ⟨[0, 1], 2, 2, 2, 0⟩ none).1 = .handle 2
    ∧ (limitonFactoryCall ⟨2, true⟩ ⟨[0, 1], 2, 2, 2, 0⟩ none).2.refs = [1] ++ [2]
    ∧ derefHandle ([1] ++ [2]) [] 0 = .error .referenceError
    ∧ (([1] ++ [2]).all (derefSucceeds ([1] ++ [2]) [])) = true :=
  C10_evicted_handles_expire ⟨2, true⟩ ⟨[0, 1], 2, 2, 2, 0⟩ 0 [1]
    rfl rfl rfl rfl (by decide)
